import Mathlib

/-!
Verification development for the frenderer resource-group and deferred-upload
subsystem.  The definitions below embed `src/frenderer/src/frenderer.rs`
(the dirty-range queue, the range-scoped mutable accessors, the flush, and
the frame entry point) and `src/frenderer/src/renderer/billboard.rs` (the
batch aggregator).  Parts of the repository that those files call but whose
sources are not available (`sprites.rs`, `meshes.rs`, the crate-level
`range` helper) are modelled from the specification and are marked as such
in their doc comments.  Instance payloads are abstract type parameters since
no verified property depends on their contents.
-/

namespace Frenderer

/-- Half-open index interval mirroring Rust `Range<usize>`; the Rust field
`end` is a Lean keyword, so it is called `stop` here. -/
structure URange where
  start : Nat
  stop : Nat
  deriving DecidableEq, Repr

/-- Mirrors `std::ops::Bound<usize>`, one end of a `RangeBounds` argument. -/
inductive Bound where
  | included (n : Nat)
  | excluded (n : Nat)
  | unbounded
  deriving DecidableEq, Repr

/-- Mirrors an `impl RangeBounds<usize>` argument value by its two bounds. -/
structure RBounds where
  lo : Bound
  hi : Bound
  deriving DecidableEq, Repr

/-- Modelled from the spec: the crate-level helper `crate::range` (not under
`src/`) used by the accessors to resolve a `RangeBounds<usize>` request
against a group's logical length, unbounded ends defaulting to `0` and to
the logical length (spec section 4.2: range-scoped accessor calls are
resolved against the group's logical length). -/
def range (b : RBounds) (count : Nat) : URange :=
  { start :=
      match b.lo with
      | .included n => n
      | .excluded n => n + 1
      | .unbounded => 0
    stop :=
      match b.hi with
      | .included n => n + 1
      | .excluded n => n
      | .unbounded => count }

/-- Error kinds of spec section 7 that the accessors can surface.  The source
raises them as panics (`sprites_mut` documents that it panics when the group
is not populated or the range is out of bounds); they are modelled as error
results here. -/
inductive RError where
  | InvalidGroupError
  | OutOfBoundsError
  deriving DecidableEq, Repr

/-- Modelled from the spec: per-group storage of the sprite renderer
(`sprites.rs` is not under `src/`).  A group holds two parallel in-memory
arrays of equal logical length (spec section 3), a capacity that only
grows, and the GPU-resident copies of the two arrays. -/
structure SpriteGroup (α β : Type) where
  transforms : List α
  regions : List β
  capacity : Nat
  gpuT : List α
  gpuR : List β
  deriving DecidableEq, Repr

/-- Opaque mesh-group identifier mirroring `crate::meshes::MeshGroup`. -/
structure MeshGroup where
  idx : Nat
  deriving DecidableEq, Repr

/-- Modelled from the spec: per-mesh instance storage of the mesh and flat
renderers (`meshes.rs` is not under `src/`): an in-memory instance
transform array and its GPU-resident copy. -/
structure MeshData (γ : Type) where
  instances : List γ
  gpu : List γ
  deriving DecidableEq, Repr

/-- Mirrors the `Upload` enum of `frenderer.rs` (lines 30-34): one queued
dirty range tagged with its target kind and group. -/
inductive Upload where
  | Mesh (mg : MeshGroup) (m : Nat) (r : URange)
  | Flat (mg : MeshGroup) (m : Nat) (r : URange)
  | Sprite (s : Nat) (r : URange)
  deriving DecidableEq, Repr

/-- One GPU buffer write issued during a flush: target and range of a single
`write_buffer` call (spec section 6). -/
inductive GpuWrite where
  | mesh (mg : MeshGroup) (m : Nat) (r : URange)
  | flat (mg : MeshGroup) (m : Nat) (r : URange)
  | sprite (s : Nat) (r : URange)
  deriving DecidableEq, Repr

/-- Mirrors the `Renderer` struct of `frenderer.rs`, restricted to the fields
the deferred-upload core touches: the three tracked renderers (group tables
whose tombstoned slots are `none`) and the pending upload queue. -/
structure Renderer (α β γ : Type) where
  sprites : List (Option (SpriteGroup α β))
  meshes : List (Option (List (MeshData γ)))
  flats : List (Option (List (MeshData γ)))
  queued_uploads : List Upload
  deriving DecidableEq, Repr

/-- Copies `src`-values into `dst` at every index of `rng`, leaving other
indices unchanged: the effect of one `write_buffer` call that copies an
in-memory range into a GPU buffer at the same offset (spec section 4.3). -/
def copyRange {α : Type} [Inhabited α] (dst src : List α) (rng : URange) : List α :=
  (List.range dst.length).map fun i =>
    if rng.start ≤ i ∧ i < rng.stop then src.getD i default else dst.getD i default

/-- Effect of the caller writing `vals` through a mutable slice covering
`rng` of `xs`: index `rng.start + k` of the array receives element `k` of
`vals`, indices outside `rng` keep their values. -/
def writeThrough {α : Type} [Inhabited α] (xs : List α) (rng : URange) (vals : List α) : List α :=
  (List.range xs.length).map fun i =>
    if rng.start ≤ i ∧ i < rng.stop then vals.getD (i - rng.start) default else xs.getD i default

variable {α β γ : Type}

/-- Mirrors `Renderer::sprite_group_size` (lines 352-354), which delegates to
the sprite renderer; the source panics when the slot is empty or unknown,
modelled as `none`. -/
def Renderer.sprite_group_size (r : Renderer α β γ) (which : Nat) : Option Nat :=
  match r.sprites.getD which none with
  | some g => some g.transforms.length
  | none => none

/-- Mirrors `Renderer::sprites_mut` (`frenderer.rs` lines 376-390): look up
the group size (a panic on an unpopulated group is modelled as
`InvalidGroupError`), resolve the requested range, push one `Upload::Sprite`
entry onto `queued_uploads`, then perform the bounds-enforced slicing of the
two arrays (a slicing panic is modelled as `OutOfBoundsError`).  The
resolved range returned on success stands for the pair of mutable slices. -/
def Renderer.sprites_mut (r : Renderer α β γ) (which : Nat) (b : RBounds) :
    Renderer α β γ × Except RError URange :=
  match r.sprites.getD which none with
  | none => (r, .error .InvalidGroupError)
  | some g =>
    let count := g.transforms.length
    let rng := range b count
    let r2 := { r with queued_uploads := r.queued_uploads ++ [Upload.Sprite which rng] }
    if rng.start ≤ rng.stop ∧ rng.stop ≤ count then (r2, .ok rng)
    else (r2, .error .OutOfBoundsError)

/-- Modelled from the spec: `mesh_instance_count` of the mesh and flat
renderers (`meshes.rs` is not under `src/`): the instance count of mesh
`idx` of group `mg`, `none` (a panic in the source) when the group slot is
empty or `idx` names no mesh. -/
def meshCount (store : List (Option (List (MeshData γ)))) (mg : MeshGroup) (idx : Nat) :
    Option Nat :=
  match store.getD mg.idx none with
  | some ms =>
    match ms[idx]? with
    | some m => some m.instances.length
    | none => none
  | none => none

/-- Mirrors `Renderer::meshes_mut` (lines 441-453): same shape as
`sprites_mut`, pushing an `Upload::Mesh` entry before the slicing. -/
def Renderer.meshes_mut (r : Renderer α β γ) (which : MeshGroup) (idx : Nat) (b : RBounds) :
    Renderer α β γ × Except RError URange :=
  match meshCount r.meshes which idx with
  | none => (r, .error .InvalidGroupError)
  | some count =>
    let rng := range b count
    let r2 := { r with queued_uploads := r.queued_uploads ++ [Upload.Mesh which idx rng] }
    if rng.start ≤ rng.stop ∧ rng.stop ≤ count then (r2, .ok rng)
    else (r2, .error .OutOfBoundsError)

/-- Mirrors `Renderer::flats_mut` (lines 504-516): same shape as
`sprites_mut`, pushing an `Upload::Flat` entry before the slicing. -/
def Renderer.flats_mut (r : Renderer α β γ) (which : MeshGroup) (idx : Nat) (b : RBounds) :
    Renderer α β γ × Except RError URange :=
  match meshCount r.flats which idx with
  | none => (r, .error .InvalidGroupError)
  | some count =>
    let rng := range b count
    let r2 := { r with queued_uploads := r.queued_uploads ++ [Upload.Flat which idx rng] }
    if rng.start ≤ rng.stop ∧ rng.stop ≤ count then (r2, .ok rng)
    else (r2, .error .OutOfBoundsError)

/-- Models the caller writing `newT` and `newR` through the mutable slices
returned by `sprites_mut` for range `rng`: a pure update of the group's
in-memory arrays; the GPU copies are untouched. -/
def Renderer.write_sprites [Inhabited α] [Inhabited β] (r : Renderer α β γ) (which : Nat)
    (rng : URange) (newT : List α) (newR : List β) : Renderer α β γ :=
  match r.sprites.getD which none with
  | none => r
  | some g =>
    { r with sprites := r.sprites.set which (some { g with
        transforms := writeThrough g.transforms rng newT
        regions := writeThrough g.regions rng newR }) }

/-- Modelled from the spec: `SpriteRenderer::upload_sprites` (`sprites.rs`
not under `src/`) issues one GPU write copying the current contents of the
named range from the in-memory arrays into the GPU-resident buffer at the
same offset (spec section 4.3). -/
def upload_sprites [Inhabited α] [Inhabited β] (r : Renderer α β γ) (s : Nat) (rng : URange) :
    Renderer α β γ :=
  match r.sprites.getD s none with
  | none => r
  | some g =>
    { r with sprites := r.sprites.set s (some { g with
        gpuT := copyRange g.gpuT g.transforms rng
        gpuR := copyRange g.gpuR g.regions rng }) }

/-- Modelled from the spec: `upload_meshes` of the mesh and flat renderers
(`meshes.rs` not under `src/`): one GPU write copying the named instance
range into that mesh's GPU buffer at the same offset. -/
def uploadMeshStore [Inhabited γ] (store : List (Option (List (MeshData γ)))) (mg : MeshGroup)
    (m : Nat) (rng : URange) : List (Option (List (MeshData γ))) :=
  match store.getD mg.idx none with
  | none => store
  | some ms =>
    match ms[m]? with
    | none => store
    | some md =>
      store.set mg.idx (some (ms.set m { md with gpu := copyRange md.gpu md.instances rng }))

/-- Describes the single `write_buffer` call a queued entry produces at
flush time. -/
def eventOf : Upload → GpuWrite
  | .Mesh mg m r => .mesh mg m r
  | .Flat mg m r => .flat mg m r
  | .Sprite s r => .sprite s r

/-- Processes one drained queue entry, mirroring the `match` inside
`Renderer::do_uploads` (lines 179-185): dispatch to the owning renderer's
upload routine; also returns the one GPU write issued. -/
def applyUpload [Inhabited α] [Inhabited β] [Inhabited γ] (r : Renderer α β γ) (u : Upload) :
    Renderer α β γ × GpuWrite :=
  match u with
  | .Mesh mg m rg => ({ r with meshes := uploadMeshStore r.meshes mg m rg }, .mesh mg m rg)
  | .Flat mg m rg => ({ r with flats := uploadMeshStore r.flats mg m rg }, .flat mg m rg)
  | .Sprite s rg => (upload_sprites r s rg, .sprite s rg)

/-- Folding step of the drain loop in `Renderer::do_uploads`: process one
entry and append its GPU write to the trace. -/
def uploadStep [Inhabited α] [Inhabited β] [Inhabited γ]
    (p : Renderer α β γ × List GpuWrite) (u : Upload) : Renderer α β γ × List GpuWrite :=
  let q := applyUpload p.1 u
  (q.1, p.2 ++ [q.2])

/-- Mirrors `Renderer::do_uploads` (lines 178-186): drains `queued_uploads`
front to back, issuing one GPU write per entry; the queue is empty after the
drain.  Also returns the trace of GPU writes in issue order. -/
def Renderer.do_uploads [Inhabited α] [Inhabited β] [Inhabited γ] (r : Renderer α β γ) :
    Renderer α β γ × List GpuWrite :=
  r.queued_uploads.foldl uploadStep ({ r with queued_uploads := [] }, [])

/-- Modelled from the spec: `SpriteRenderer::resize_sprite_group`
(`sprites.rs` not under `src/`, reached through
`Renderer::sprite_group_resize`, lines 362-364).  Sets the logical length
(spec section 4.1): within capacity only the logical bound of the arrays is
adjusted; beyond capacity the backing arrays and the GPU buffer are
reallocated (data preserved up to the old length, new slots
default-initialised, GPU buffer recreated with no prior data) and the
entire live range is marked dirty (spec section 4.3 growth interaction).
The source panics when the group is not populated, modelled as an error. -/
def Renderer.sprite_group_resize [Inhabited α] [Inhabited β] (r : Renderer α β γ)
    (which : Nat) (len : Nat) : Except RError (Renderer α β γ) :=
  match r.sprites.getD which none with
  | none => .error .InvalidGroupError
  | some g =>
    if len ≤ g.capacity then
      .ok { r with sprites := r.sprites.set which (some { g with
        transforms := g.transforms.take len ++ List.replicate (len - g.transforms.length) default
        regions := g.regions.take len ++ List.replicate (len - g.regions.length) default }) }
    else
      .ok { r with
        sprites := r.sprites.set which (some {
          transforms := g.transforms.take len ++ List.replicate (len - g.transforms.length) default
          regions := g.regions.take len ++ List.replicate (len - g.regions.length) default
          capacity := len
          gpuT := List.replicate len default
          gpuR := List.replicate len default })
        queued_uploads := r.queued_uploads ++ [Upload.Sprite which { start := 0, stop := len }] }

/-- One recorded draw submission (spec section 6: pipeline kind, group,
mesh index within the group, instance count). -/
structure DrawCmd where
  kind : Nat
  group : Nat
  mesh : Nat
  instances : Nat
  deriving DecidableEq, Repr

/-- Modelled from the spec: the draws recorded by the mesh and flat
renderers inside `Renderer::render_into` (the renderers are not under
`src/`): one draw per live mesh of each live group. -/
def drawsOfMeshStore (kind : Nat) (store : List (Option (List (MeshData γ)))) : List DrawCmd :=
  (store.enum.map fun p =>
    match p.2 with
    | none => []
    | some ms => ms.enum.map fun q => DrawCmd.mk kind p.1 q.1 q.2.instances.length).flatten

/-- Modelled from the spec: the draws recorded by the sprite renderer inside
`Renderer::render_into`: one draw per live sprite group, instance count
equal to the group's logical length. -/
def drawsOfSprites (store : List (Option (SpriteGroup α β))) : List DrawCmd :=
  (store.enum.map fun p =>
    match p.2 with
    | none => []
    | some g => [DrawCmd.mk 2 p.1 0 g.transforms.length]).flatten

/-- Mirrors `Renderer::render_into` (lines 224-231): records the draws of
the mesh renderer, then the flat renderer, then the sprite renderer. -/
def Renderer.render_into (r : Renderer α β γ) : List DrawCmd :=
  drawsOfMeshStore 0 r.meshes ++ drawsOfMeshStore 1 r.flats ++ drawsOfSprites r.sprites

/-- Frame event: a GPU upload write performed by the flush, or a recorded
draw command. -/
inductive FrameEv where
  | upload (w : GpuWrite)
  | draw (d : DrawCmd)
  deriving DecidableEq, Repr

/-- Mirrors `Renderer::render` (lines 192-219) as its buffer-event trace: it
first runs `do_uploads` to completion, then records the draws of
`render_into` against the flushed state.  Frame acquisition and render-pass
setup produce no buffer events. -/
def Renderer.render [Inhabited α] [Inhabited β] [Inhabited γ] (r : Renderer α β γ) :
    Renderer α β γ × List FrameEv :=
  let p := r.do_uploads
  (p.1, p.2.map FrameEv.upload ++ (Renderer.render_into p.1).map FrameEv.draw)


/-- Models the caller writing `newV` through the mutable slice returned by
`meshes_mut` for range `rng` of mesh `idx` of group `which`: a pure update
of that mesh's in-memory instance array; the GPU copy is untouched. -/
def Renderer.write_meshes [Inhabited γ] (r : Renderer α β γ) (which : MeshGroup) (idx : Nat)
    (rng : URange) (newV : List γ) : Renderer α β γ :=
  match r.meshes.getD which.idx none with
  | none => r
  | some ms =>
    match ms[idx]? with
    | none => r
    | some md =>
      { r with meshes :=
          r.meshes.set which.idx (some (ms.set idx
            { md with instances := writeThrough md.instances rng newV })) }

/-- Models the caller writing `newV` through the mutable slice returned by
`flats_mut`: the flat-renderer twin of `write_meshes`. -/
def Renderer.write_flats [Inhabited γ] (r : Renderer α β γ) (which : MeshGroup) (idx : Nat)
    (rng : URange) (newV : List γ) : Renderer α β γ :=
  match r.flats.getD which.idx none with
  | none => r
  | some ms =>
    match ms[idx]? with
    | none => r
    | some md =>
      { r with flats :=
          r.flats.set which.idx (some (ms.set idx
            { md with instances := writeThrough md.instances rng newV })) }

/-- Looks up mesh `idx` of group `mg` in a mesh or flat store. -/
def meshAt (store : List (Option (List (MeshData γ)))) (mg : MeshGroup) (idx : Nat) :
    Option (MeshData γ) :=
  match store.getD mg.idx none with
  | some ms => ms[idx]?
  | none => none

/-- Discriminator: the event is a GPU upload write. -/
def FrameEv.isUpload : FrameEv → Bool
  | .upload _ => true
  | .draw _ => false

/-- Discriminator: the event is a recorded draw command. -/
def FrameEv.isDraw : FrameEv → Bool
  | .upload _ => false
  | .draw _ => true

/-- Sample live sprite group used by the concrete witnesses: logical length
four, all-zero payloads, capacity four, GPU copies in sync. -/
def sampleG : SpriteGroup Nat Nat :=
  { transforms := [0, 0, 0, 0], regions := [0, 0, 0, 0], capacity := 4
    gpuT := [0, 0, 0, 0], gpuR := [0, 0, 0, 0] }

/-- Sample renderer used by the concrete witnesses: one live sprite group,
one mesh group with a single mesh of three instances, one flat group with a
single mesh of two instances, empty pending queue. -/
def sampleR : Renderer Nat Nat Nat :=
  { sprites := [some sampleG]
    meshes := [some [{ instances := [5, 6, 7], gpu := [0, 0, 0] }]]
    flats := [some [{ instances := [8, 9], gpu := [0, 0] }]]
    queued_uploads := [] }

/-- Sample renderer with one queued sprite upload, used by the
flush-before-draw witness. -/
def sampleRQ : Renderer Nat Nat Nat :=
  { sampleR with queued_uploads := [Upload.Sprite 0 ⟨1, 3⟩] }

end Frenderer

namespace Billboard

/-- Scalar stand-in for the `f32` payload fields of the instance records; no
verified property computes with these values, so an abstract integer carrier
keeps every definition decidable. -/
abbrev F := Int

/-- Mirrors the `Rect` payload field type of `SingleRenderState`. -/
structure Rect where
  x : F
  y : F
  w : F
  h : F
  deriving DecidableEq, Repr, Inhabited

/-- Mirrors the `Vec4` payload field type. -/
structure Vec4 where
  x : F
  y : F
  z : F
  w : F
  deriving DecidableEq, Repr, Inhabited

/-- Mirrors the `Vec3` payload field type. -/
structure Vec3 where
  x : F
  y : F
  z : F
  deriving DecidableEq, Repr, Inhabited

/-- Mirrors `SingleRenderState` (`billboard.rs` lines 29-35), the public
per-instance record. -/
structure SingleRenderState where
  uv_region : Rect
  position_rot : Vec4
  size_alpha : Vec3
  deriving DecidableEq, Repr, Inhabited

/-- Mirrors `InstanceData` (lines 38-42), the GPU-layout record with plain
scalar arrays. -/
structure InstanceData where
  uv_region : F × F × F × F
  position_rot : F × F × F × F
  size_alpha : F × F × F
  deriving DecidableEq, Repr, Inhabited

/-- Field-for-field reading of the layout-preserving `transmute` inside
`BatchData::push_instances` (lines 389-393): both records are plain data
with identical field order and widths. -/
def srsToInstanceData (s : SingleRenderState) : InstanceData :=
  { uv_region := (s.uv_region.x, s.uv_region.y, s.uv_region.w, s.uv_region.h)
    position_rot := (s.position_rot.x, s.position_rot.y, s.position_rot.z, s.position_rot.w)
    size_alpha := (s.size_alpha.x, s.size_alpha.y, s.size_alpha.z) }

/-- Mirrors `BlendMode` (lines 90-94); only `Additive` exists. -/
inductive BlendMode where
  | Additive
  deriving DecidableEq, Repr

/-- Opaque texture identifier mirroring `assets::TextureRef`. -/
abbrev TextureRef := Nat

/-- Batch key `(assets::TextureRef, BlendMode)` (line 123). -/
abbrev Key := TextureRef × BlendMode

/-- Mirrors `BatchData` (lines 95-101): the per-key accumulation buffer, the
per-frame buffer chunk set by `prepare_draw`, and the material binding (an
opaque tag here; the shared immutable index buffer carries no
claim-relevant state and is omitted). -/
structure BatchData where
  material_pds : Nat
  instance_data : List InstanceData
  instance_buf : Option (List InstanceData)
  deriving DecidableEq, Repr

/-- Mirrors `BatchData::push_instances` (lines 387-394): reinterprets each
incoming state as an `InstanceData` and appends it to the accumulation
buffer. -/
def BatchData.push_instances (b : BatchData) (insts : List SingleRenderState) : BatchData :=
  { b with instance_data := b.instance_data ++ insts.map srsToInstanceData }

/-- Mirrors `BatchData::clear_frame` (lines 381-383): clears the accumulated
instance data (the allocation and the other fields survive). -/
def BatchData.clear_frame (b : BatchData) : BatchData :=
  { b with instance_data := [] }

/-- Mirrors `BatchData::prepare_draw` (lines 347-356): takes a buffer chunk
holding the accumulated data. -/
def BatchData.prepare_draw (b : BatchData) : BatchData :=
  { b with instance_buf := some b.instance_data }

/-- Mirrors `Renderer::create_batch` (lines 273-296): a fresh batch with an
empty accumulation buffer and the material binding built from the texture. -/
def create_batch (texture : Nat) : BatchData :=
  { material_pds := texture, instance_data := [], instance_buf := none }

/-- Entry update on the batch table, mirroring the `HashMap` entry match in
`push_models`: an occupied key receives the instances in place, a vacant key
gets a fresh batch (built from the texture) holding them. -/
def pushKey (bs : List (Key × BatchData)) (k : Key) (texture : Nat)
    (insts : List SingleRenderState) : List (Key × BatchData) :=
  match bs with
  | [] => [(k, (create_batch texture).push_instances insts)]
  | p :: rest =>
    if p.1 = k then (p.1, p.2.push_instances insts) :: rest
    else p :: pushKey rest k texture insts

/-- Mirrors the billboard `Renderer` (lines 110-121) restricted to its batch
table.  The `HashMap` over keys is modelled as an association list with
unique keys; new keys are appended at the back (iteration order of the real
map is arbitrary, and no verified property depends on it). -/
structure Renderer where
  batches : List (Key × BatchData)
  deriving DecidableEq, Repr

/-- Association-list lookup standing for `HashMap` key lookup. -/
def lookupBatch (bs : List (Key × BatchData)) (k : Key) : Option BatchData :=
  match bs with
  | [] => none
  | p :: rest => if p.1 = k then some p.2 else lookupBatch rest k

/-- Looks up the batch accumulated under key `k`. -/
def Renderer.batch? (r : Renderer) (k : Key) : Option BatchData :=
  lookupBatch r.batches k

/-- Mirrors `Renderer::push_models` (lines 251-272). -/
def Renderer.push_models (r : Renderer) (k : Key) (texture : Nat)
    (dat : List SingleRenderState) : Renderer :=
  { batches := pushKey r.batches k texture dat }

/-- Mirrors `Renderer::prepare_draw` (lines 308-326) restricted to batch
state: every batch takes its buffer chunk (the uniform binding carries no
claim-relevant data and is omitted). -/
def Renderer.prepare_draw (r : Renderer) : Renderer :=
  { batches := r.batches.map fun p => (p.1, p.2.prepare_draw) }

/-- Mirrors the billboard portion of the `RenderState` consumed by `prepare`
(lines 297-307): interpolated single states and raw persistent state lists,
each tagged with its batch key. -/
structure BillboardState where
  interpolated : List (Key × SingleRenderState)
  raw : List (Key × List SingleRenderState)
  deriving DecidableEq, Repr

/-- Mirrors `Renderer::prepare` (lines 297-307): push each interpolated state
singly, then each raw state list, then run `prepare_draw`.  The asset table
resolving a `TextureRef` to its texture is `tex`. -/
def Renderer.prepare (r : Renderer) (rs : BillboardState) (tex : TextureRef → Nat) : Renderer :=
  let r1 := rs.interpolated.foldl (fun acc p => acc.push_models p.1 (tex p.1.1) [p.2]) r
  let r2 := rs.raw.foldl (fun acc p => acc.push_models p.1 (tex p.1.1) p.2) r1
  r2.prepare_draw

/-- One recorded `draw_indexed` call (line 378): the batch key it was issued
for, the fixed index count of six, and the instance count. -/
structure DrawCall where
  key : Key
  index_count : Nat
  instances : Nat
  deriving DecidableEq, Repr

/-- Mirrors `Renderer::clear_frame` (lines 337-343): drop batches whose
accumulation buffer is empty, then clear the instance data of every
remaining batch. -/
def Renderer.clear_frame (r : Renderer) : Renderer :=
  { batches := (r.batches.filter fun p => !p.2.instance_data.isEmpty).map
      fun p => (p.1, p.2.clear_frame) }

/-- Mirrors `Renderer::draw` (lines 327-336) together with
`BatchData::draw` (lines 357-380): one `draw_indexed` call is issued per
batch in the table, with instance count `instance_data.len()` (line 378),
after which `clear_frame` runs. -/
def Renderer.draw (r : Renderer) : Renderer × List DrawCall :=
  (r.clear_frame, r.batches.map fun p => DrawCall.mk p.1 6 p.2.instance_data.length)

/-- Accumulated instance data stored under key `k`, the empty list when the
key is absent from the batch table. -/
def instData (r : Renderer) (k : Key) : List InstanceData :=
  ((r.batch? k).map BatchData.instance_data).getD []

/-- Empty billboard renderer used by the concrete batch scenarios. -/
def emptyB : Renderer := { batches := [] }

/-- Batch key used by the concrete batch scenarios. -/
def k0 : Key := (0, BlendMode.Additive)

/-- Sample render state with one persistent (raw) instance under key
`(0, Additive)` and no interpolated instances, used by the clearing
counterexample. -/
def sampleBState : BillboardState := { interpolated := [], raw := [(k0, [default])] }

end Billboard

namespace Frenderer

variable {α β γ : Type}

theorem getD_range_map {α : Type} (f : Nat → α) {n i : Nat} (d : α) (h : i < n) :
    ((List.range n).map f).getD i d = f i := by
  simp [List.getD, List.getElem?_map, List.getElem?_range h]

theorem copyRange_length [Inhabited α] (dst src : List α) (rng : URange) :
    (copyRange dst src rng).length = dst.length := by
  simp [copyRange]

theorem copyRange_getD_in [Inhabited α] {dst src : List α} {rng : URange} {i : Nat}
    (hin : rng.start ≤ i ∧ i < rng.stop) (hi : i < dst.length) :
    (copyRange dst src rng).getD i default = src.getD i default := by
  rw [copyRange, getD_range_map _ _ hi, if_pos hin]

theorem copyRange_getD_out [Inhabited α] {dst src : List α} {rng : URange} {i : Nat}
    (hout : ¬(rng.start ≤ i ∧ i < rng.stop)) (hi : i < dst.length) :
    (copyRange dst src rng).getD i default = dst.getD i default := by
  rw [copyRange, getD_range_map _ _ hi, if_neg hout]

theorem writeThrough_length [Inhabited α] (xs vals : List α) (rng : URange) :
    (writeThrough xs rng vals).length = xs.length := by
  simp [writeThrough]

theorem writeThrough_getD_in [Inhabited α] {xs vals : List α} {rng : URange} {i : Nat}
    (hin : rng.start ≤ i ∧ i < rng.stop) (hi : i < xs.length) :
    (writeThrough xs rng vals).getD i default = vals.getD (i - rng.start) default := by
  rw [writeThrough, getD_range_map _ _ hi, if_pos hin]

theorem writeThrough_getD_out [Inhabited α] {xs vals : List α} {rng : URange} {i : Nat}
    (hout : ¬(rng.start ≤ i ∧ i < rng.stop)) (hi : i < xs.length) :
    (writeThrough xs rng vals).getD i default = xs.getD i default := by
  rw [writeThrough, getD_range_map _ _ hi, if_neg hout]

theorem getD_set_self {α : Type} {l : List α} {i : Nat} (v d : α) (h : i < l.length) :
    (l.set i v).getD i d = v := by
  simp [List.getD, List.getElem?_set_self, h]

theorem getElem?_set_self_of_lt {α : Type} {l : List α} {i : Nat} (a : α)
    (h : i < l.length) : (l.set i a)[i]? = some a := by
  simp [List.getElem?_set_self, h]

theorem lt_length_of_getD_some {α : Type} {l : List (Option α)} {i : Nat} {v : α}
    (h : l.getD i none = some v) : i < l.length := by
  by_contra hc
  push_neg at hc
  rw [List.getD_eq_default _ _ hc] at h
  simp at h

/-- C2: every call to a mutable-range accessor (`sprites_mut`, `meshes_mut`,
`flats_mut`) on a live group appends exactly one dirty-range entry, covering
exactly the resolved accessed range, to the pending upload queue.  The
statement involves no write through the returned slices, so the enqueue is
unconditional in the caller's writes, and the equation holds whether the
call returns the slices or fails the bounds check. -/
theorem accessors_enqueue_exactly_one (r : Renderer α β γ) (b : RBounds) :
    (∀ which g, r.sprites.getD which none = some g →
      (r.sprites_mut which b).1.queued_uploads
        = r.queued_uploads ++ [Upload.Sprite which (range b g.transforms.length)])
    ∧ (∀ mg idx n, meshCount r.meshes mg idx = some n →
      (r.meshes_mut mg idx b).1.queued_uploads
        = r.queued_uploads ++ [Upload.Mesh mg idx (range b n)])
    ∧ (∀ mg idx n, meshCount r.flats mg idx = some n →
      (r.flats_mut mg idx b).1.queued_uploads
        = r.queued_uploads ++ [Upload.Flat mg idx (range b n)]) := by
  refine ⟨fun which g hg => ?_, fun mg idx n hn => ?_, fun mg idx n hn => ?_⟩
  · simp only [Renderer.sprites_mut]
    rw [hg]
    dsimp only
    split <;> rfl
  · simp only [Renderer.meshes_mut]
    rw [hn]
    dsimp only
    split <;> rfl
  · simp only [Renderer.flats_mut]
    rw [hn]
    dsimp only
    split <;> rfl

/-- Witness for the enqueue theorem at the sample renderer: requesting the
sprite range two-to-four pushes exactly that entry. -/
theorem accessors_enqueue_exactly_one_witness :
    (sampleR.sprites_mut 0 ⟨.included 1, .excluded 3⟩).1.queued_uploads
      = sampleR.queued_uploads
          ++ [Upload.Sprite 0 (range ⟨.included 1, .excluded 3⟩ sampleG.transforms.length)] :=
  (accessors_enqueue_exactly_one sampleR ⟨.included 1, .excluded 3⟩).1 0 sampleG rfl

/-- C9: error contract of the sprite mutable-range accessor: a tombstoned or
unknown group id yields `InvalidGroupError`; a live group whose resolved
range reaches beyond the logical length yields `OutOfBoundsError`; a live
group with an in-bounds range succeeds, returning the view range. -/
theorem sprites_mut_error_contract (r : Renderer α β γ) (which : Nat) (b : RBounds) :
    (r.sprites.getD which none = none →
      (r.sprites_mut which b).2 = .error .InvalidGroupError)
    ∧ (∀ g, r.sprites.getD which none = some g →
        g.transforms.length < (range b g.transforms.length).stop →
        (r.sprites_mut which b).2 = .error .OutOfBoundsError)
    ∧ (∀ g, r.sprites.getD which none = some g →
        (range b g.transforms.length).start ≤ (range b g.transforms.length).stop →
        (range b g.transforms.length).stop ≤ g.transforms.length →
        (r.sprites_mut which b).2 = .ok (range b g.transforms.length)) := by
  refine ⟨fun hg => ?_, fun g hg hoob => ?_, fun g hg h1 h2 => ?_⟩
  · simp only [Renderer.sprites_mut]
    rw [hg]
  · simp only [Renderer.sprites_mut]
    rw [hg]
    dsimp only
    rw [if_neg (by omega)]
  · simp only [Renderer.sprites_mut]
    rw [hg]
    dsimp only
    rw [if_pos ⟨h1, h2⟩]

/-- Witness for the error contract at the sample renderer: an unknown group
id fails with `InvalidGroupError`, range two-to-six fails with
`OutOfBoundsError`, and range two-to-four succeeds. -/
theorem sprites_mut_error_contract_witness :
    (sampleR.sprites_mut 7 ⟨.unbounded, .unbounded⟩).2 = .error .InvalidGroupError
    ∧ (sampleR.sprites_mut 0 ⟨.included 1, .excluded 6⟩).2 = .error .OutOfBoundsError
    ∧ (sampleR.sprites_mut 0 ⟨.included 1, .excluded 3⟩).2
        = .ok (range ⟨.included 1, .excluded 3⟩ sampleG.transforms.length) :=
  ⟨(sprites_mut_error_contract sampleR 7 ⟨.unbounded, .unbounded⟩).1 rfl,
   (sprites_mut_error_contract sampleR 0 ⟨.included 1, .excluded 6⟩).2.1 sampleG rfl (by decide),
   (sprites_mut_error_contract sampleR 0 ⟨.included 1, .excluded 3⟩).2.2 sampleG rfl (by decide)
     (by decide)⟩

/-- C10: non-atomicity of a failed accessor call: on a live group whose
resolved range reaches beyond the logical length, each accessor fails with
`OutOfBoundsError`, yet the returned state's pending upload queue has
already grown by exactly the dirty-range entry for that range — the entry
is pushed before the bounds-enforced slicing. -/
theorem failed_accessor_leaves_queue_mutated (r : Renderer α β γ) (b : RBounds) :
    (∀ which g, r.sprites.getD which none = some g →
      g.transforms.length < (range b g.transforms.length).stop →
      (r.sprites_mut which b).2 = .error .OutOfBoundsError
        ∧ (r.sprites_mut which b).1.queued_uploads
            = r.queued_uploads ++ [Upload.Sprite which (range b g.transforms.length)])
    ∧ (∀ mg idx n, meshCount r.meshes mg idx = some n → n < (range b n).stop →
      (r.meshes_mut mg idx b).2 = .error .OutOfBoundsError
        ∧ (r.meshes_mut mg idx b).1.queued_uploads
            = r.queued_uploads ++ [Upload.Mesh mg idx (range b n)])
    ∧ (∀ mg idx n, meshCount r.flats mg idx = some n → n < (range b n).stop →
      (r.flats_mut mg idx b).2 = .error .OutOfBoundsError
        ∧ (r.flats_mut mg idx b).1.queued_uploads
            = r.queued_uploads ++ [Upload.Flat mg idx (range b n)]) := by
  refine ⟨fun which g hg hoob => ?_, fun mg idx n hn hoob => ?_, fun mg idx n hn hoob => ?_⟩
  · simp only [Renderer.sprites_mut]
    rw [hg]
    dsimp only
    rw [if_neg (by omega)]
    exact ⟨rfl, rfl⟩
  · simp only [Renderer.meshes_mut]
    rw [hn]
    dsimp only
    rw [if_neg (by omega)]
    exact ⟨rfl, rfl⟩
  · simp only [Renderer.flats_mut]
    rw [hn]
    dsimp only
    rw [if_neg (by omega)]
    exact ⟨rfl, rfl⟩

/-- Witness for the non-atomicity theorem at the sample renderer: the
out-of-bounds sprite request two-to-six fails, yet leaves its entry in the
queue. -/
theorem failed_accessor_leaves_queue_mutated_witness :
    (sampleR.sprites_mut 0 ⟨.included 1, .excluded 6⟩).2 = .error .OutOfBoundsError
    ∧ (sampleR.sprites_mut 0 ⟨.included 1, .excluded 6⟩).1.queued_uploads
        = sampleR.queued_uploads
            ++ [Upload.Sprite 0 (range ⟨.included 1, .excluded 6⟩ sampleG.transforms.length)] :=
  (failed_accessor_leaves_queue_mutated sampleR ⟨.included 1, .excluded 6⟩).1 0 sampleG rfl
    (by decide)

end Frenderer

namespace Frenderer

variable {α β γ : Type}

theorem applyUpload_queue [Inhabited α] [Inhabited β] [Inhabited γ]
    (r : Renderer α β γ) (u : Upload) :
    (applyUpload r u).1.queued_uploads = r.queued_uploads := by
  cases u with
  | Mesh mg m rg => rfl
  | Flat mg m rg => rfl
  | Sprite s rg =>
    simp only [applyUpload, upload_sprites]
    split <;> rfl

theorem applyUpload_event [Inhabited α] [Inhabited β] [Inhabited γ]
    (r : Renderer α β γ) (u : Upload) :
    (applyUpload r u).2 = eventOf u := by
  cases u <;> rfl

theorem foldl_uploadStep_trace [Inhabited α] [Inhabited β] [Inhabited γ]
    (qs : List Upload) (r0 : Renderer α β γ) (acc : List GpuWrite) :
    (qs.foldl uploadStep (r0, acc)).2 = acc ++ qs.map eventOf := by
  induction qs generalizing r0 acc with
  | nil => simp
  | cons u rest ih =>
    simp only [List.foldl_cons, uploadStep]
    rw [ih]
    simp [applyUpload_event]

theorem foldl_uploadStep_queue [Inhabited α] [Inhabited β] [Inhabited γ]
    (qs : List Upload) (r0 : Renderer α β γ) (acc : List GpuWrite) :
    (qs.foldl uploadStep (r0, acc)).1.queued_uploads = r0.queued_uploads := by
  induction qs generalizing r0 acc with
  | nil => rfl
  | cons u rest ih =>
    simp only [List.foldl_cons, uploadStep]
    rw [ih]
    exact applyUpload_queue r0 u

/-- C3: `do_uploads` drains the pending queue in FIFO insertion order,
issuing exactly one GPU write per queued entry — the write trace is the
entry-by-entry image of the queue under `eventOf` — and the pending queue
is empty afterwards. -/
theorem do_uploads_fifo_one_write_each [Inhabited α] [Inhabited β] [Inhabited γ]
    (r : Renderer α β γ) :
    r.do_uploads.2 = r.queued_uploads.map eventOf
      ∧ r.do_uploads.1.queued_uploads = [] := by
  constructor
  · simp only [Renderer.do_uploads]
    simpa using foldl_uploadStep_trace r.queued_uploads { r with queued_uploads := [] } []
  · simp only [Renderer.do_uploads]
    simpa using foldl_uploadStep_queue r.queued_uploads { r with queued_uploads := [] } []

theorem upload_draw_order {A D : List FrameEv}
    (hA : ∀ e ∈ A, e.isDraw = false) (hD : ∀ e ∈ D, e.isUpload = false)
    (i j : Nat) (hi : i < (A ++ D).length) (hj : j < (A ++ D).length)
    (hu : ((A ++ D).get ⟨i, hi⟩).isUpload = true)
    (hd : ((A ++ D).get ⟨j, hj⟩).isDraw = true) : i < j := by
  rw [List.get_eq_getElem] at hu hd
  have hiA : i < A.length := by
    by_contra hni
    push_neg at hni
    have hb : i - A.length < D.length := by
      rw [List.length_append] at hi
      omega
    rw [List.getElem_append_right hni] at hu
    have hf := hD (D.get ⟨i - A.length, hb⟩) (List.get_mem D _ hb)
    rw [List.get_eq_getElem] at hf
    simp [hf] at hu
  have hjA : A.length ≤ j := by
    by_contra hnj
    push_neg at hnj
    rw [List.getElem_append_left hnj] at hd
    have hf := hA (A.get ⟨j, hnj⟩) (List.get_mem A _ hnj)
    rw [List.get_eq_getElem] at hf
    simp [hf] at hd
  omega

/-- C5: within one `render` invocation, every dirty range enqueued since the
last flush is flushed before any draw of the frame is recorded: the frame
trace contains exactly one upload write per previously queued entry (in
FIFO order), every upload event precedes every draw event, and the draws
are recorded against a renderer state whose pending queue is empty. -/
theorem render_flushes_before_draws [Inhabited α] [Inhabited β] [Inhabited γ]
    (r : Renderer α β γ) :
    (r.render.2.filterMap
        (fun e => match e with | .upload w => some w | .draw _ => none)
      = r.queued_uploads.map eventOf)
    ∧ (∀ i j (hi : i < r.render.2.length) (hj : j < r.render.2.length),
        (r.render.2.get ⟨i, hi⟩).isUpload = true →
        (r.render.2.get ⟨j, hj⟩).isDraw = true → i < j)
    ∧ r.render.1.queued_uploads = [] := by
  have htr : r.render.2
      = (r.do_uploads.2.map FrameEv.upload)
        ++ (Renderer.render_into r.do_uploads.1).map FrameEv.draw := rfl
  refine ⟨?_, ?_, ?_⟩
  · rw [htr, List.filterMap_append, List.filterMap_map, List.filterMap_map]
    have h1 : r.do_uploads.2.filterMap
        ((fun e => match e with | .upload w => some w | .draw _ => none)
          ∘ FrameEv.upload) = r.do_uploads.2 := List.filterMap_some _
    have h2 : (Renderer.render_into r.do_uploads.1).filterMap
        ((fun e => match e with | .upload w => some w | .draw _ => none)
          ∘ FrameEv.draw) = [] := by
      simp [Function.comp]
    rw [h1, h2, List.append_nil]
    exact (do_uploads_fifo_one_write_each r).1
  · intro i j hi hj hu hd
    exact upload_draw_order
      (A := r.do_uploads.2.map FrameEv.upload)
      (D := (Renderer.render_into r.do_uploads.1).map FrameEv.draw)
      (by intro e he; obtain ⟨w, hw, rfl⟩ := List.mem_map.1 he; rfl)
      (by intro e he; obtain ⟨d, hdm, rfl⟩ := List.mem_map.1 he; rfl)
      i j hi hj hu hd
  · exact (do_uploads_fifo_one_write_each r).2

/-- Witness for the flush-before-draw theorem at the sample renderer with
one queued sprite upload: in the resulting frame trace the upload at
position zero precedes the draw at position one, and the returned state's
queue is empty. -/
theorem render_flushes_before_draws_witness :
    (0 : Nat) < 1 ∧ sampleRQ.render.1.queued_uploads = [] :=
  ⟨(render_flushes_before_draws sampleRQ).2.1 0 1 (by decide) (by decide) (by decide)
      (by decide),
    (render_flushes_before_draws sampleRQ).2.2⟩

end Frenderer


namespace Frenderer

variable {α β γ : Type}

theorem sprites_pipeline [Inhabited α] [Inhabited β] [Inhabited γ]
    (r : Renderer α β γ) (which : Nat) (g : SpriteGroup α β) (b : RBounds) (rng : URange)
    (newT : List α) (newR : List β)
    (hq : r.queued_uploads = [])
    (hg : r.sprites.getD which none = some g)
    (hrng : range b g.transforms.length = rng)
    (hlo : rng.start ≤ rng.stop) (hhi : rng.stop ≤ g.transforms.length) :
    (r.sprites_mut which b).2 = .ok rng
    ∧ (((r.sprites_mut which b).1.write_sprites which rng newT newR).do_uploads).1.sprites.getD
        which none
      = some { g with
          transforms := writeThrough g.transforms rng newT
          regions := writeThrough g.regions rng newR
          gpuT := copyRange g.gpuT (writeThrough g.transforms rng newT) rng
          gpuR := copyRange g.gpuR (writeThrough g.regions rng newR) rng } := by
  have hw : which < r.sprites.length := lt_length_of_getD_some hg
  have hmut : r.sprites_mut which b
      = ({ r with queued_uploads := r.queued_uploads ++ [Upload.Sprite which rng] }, .ok rng) := by
    simp only [Renderer.sprites_mut]
    rw [hg]
    dsimp only
    rw [hrng, if_pos ⟨hlo, hhi⟩]
  refine ⟨by rw [hmut], ?_⟩
  rw [hmut]
  dsimp only
  simp only [Renderer.write_sprites]
  rw [show ({ r with queued_uploads := r.queued_uploads ++ [Upload.Sprite which rng] } :
        Renderer α β γ).sprites = r.sprites from rfl]
  rw [hg]
  dsimp only
  simp only [Renderer.do_uploads]
  rw [hq]
  simp only [List.nil_append, List.foldl_cons, List.foldl_nil, uploadStep, applyUpload]
  simp only [upload_sprites]
  rw [getD_set_self _ none (by simpa using hw)]
  dsimp only
  rw [List.set_set]
  rw [getD_set_self _ none (by simpa using hw)]

theorem sprites_round_trip_aux [Inhabited α] [Inhabited β] [Inhabited γ]
    (r : Renderer α β γ) (which : Nat) (g : SpriteGroup α β) (b : RBounds) (rng : URange)
    (newT : List α) (newR : List β)
    (hq : r.queued_uploads = [])
    (hg : r.sprites.getD which none = some g)
    (hrng : range b g.transforms.length = rng)
    (hlo : rng.start ≤ rng.stop) (hhi : rng.stop ≤ g.transforms.length)
    (hreg : g.regions.length = g.transforms.length)
    (hTlen : g.transforms.length ≤ g.gpuT.length)
    (hRlen : g.transforms.length ≤ g.gpuR.length) :
    (r.sprites_mut which b).2 = .ok rng
    ∧ ∃ g3,
      (((r.sprites_mut which b).1.write_sprites which rng newT newR).do_uploads).1.sprites.getD
          which none = some g3
      ∧ (∀ i, rng.start ≤ i → i < rng.stop →
          g3.gpuT.getD i default = newT.getD (i - rng.start) default
          ∧ g3.gpuR.getD i default = newR.getD (i - rng.start) default)
      ∧ (∀ i, (i < rng.start ∨ rng.stop ≤ i) →
          (i < g.gpuT.length → g3.gpuT.getD i default = g.gpuT.getD i default)
          ∧ (i < g.gpuR.length → g3.gpuR.getD i default = g.gpuR.getD i default)) := by
  obtain ⟨hok, hpipe⟩ := sprites_pipeline r which g b rng newT newR hq hg hrng hlo hhi
  refine ⟨hok, ⟨_, hpipe, ?_, ?_⟩⟩
  · intro i h1 h2
    dsimp only
    constructor
    · rw [copyRange_getD_in ⟨h1, h2⟩ (by omega)]
      exact writeThrough_getD_in ⟨h1, h2⟩ (by omega)
    · rw [copyRange_getD_in ⟨h1, h2⟩ (by omega)]
      exact writeThrough_getD_in ⟨h1, h2⟩ (by omega)
  · intro i hio
    dsimp only
    exact ⟨fun hilen => copyRange_getD_out (by omega) hilen,
      fun hilen => copyRange_getD_out (by omega) hilen⟩


end Frenderer

namespace Frenderer

variable {α β γ : Type}

/-- C4: growing a sprite group beyond its prior capacity reallocates its
backing and GPU storage and marks the entire live range dirty, so the next
flush uploads the whole group: afterwards the logical length is the new
length and every live index of the GPU arrays agrees with the in-memory
arrays — not just the newly added tail. -/
theorem resize_beyond_capacity_full_upload [Inhabited α] [Inhabited β] [Inhabited γ]
    (r : Renderer α β γ) (which len : Nat) (g : SpriteGroup α β)
    (hq : r.queued_uploads = [])
    (hg : r.sprites.getD which none = some g)
    (hcap : g.transforms.length ≤ g.capacity)
    (hreg : g.regions.length = g.transforms.length)
    (hlen : g.capacity < len) :
    ∃ r1, r.sprite_group_resize which len = .ok r1
      ∧ ∃ g3, (r1.do_uploads).1.sprites.getD which none = some g3
        ∧ g3.transforms.length = len
        ∧ g3.regions.length = len
        ∧ (∀ i, i < len →
            g3.gpuT.getD i default = g3.transforms.getD i default
            ∧ g3.gpuR.getD i default = g3.regions.getD i default) := by
  have hw : which < r.sprites.length := lt_length_of_getD_some hg
  simp only [Renderer.sprite_group_resize]
  rw [hg]
  dsimp only
  rw [if_neg (by omega)]
  refine ⟨_, rfl, ?_⟩
  simp only [Renderer.do_uploads]
  rw [hq]
  simp only [List.nil_append, List.foldl_cons, List.foldl_nil, uploadStep, applyUpload]
  simp only [upload_sprites]
  rw [getD_set_self _ none (by simpa using hw)]
  dsimp only
  rw [List.set_set]
  rw [getD_set_self _ none (by simpa using hw)]
  refine ⟨_, rfl, ?_, ?_, ?_⟩
  · dsimp only
    simp only [List.length_append, List.length_take, List.length_replicate]
    omega
  · dsimp only
    simp only [List.length_append, List.length_take, List.length_replicate]
    omega
  · intro i hi
    constructor
    · dsimp only
      rw [copyRange_getD_in ⟨Nat.zero_le _, hi⟩
        (by simp only [List.length_replicate]; exact hi)]
    · dsimp only
      rw [copyRange_getD_in ⟨Nat.zero_le _, hi⟩
        (by simp only [List.length_replicate]; exact hi)]

/-- Witness for the growth theorem: resizing the sample group of capacity
four to length six succeeds, and after the flush the whole live range of
six entries is present in the GPU arrays. -/
theorem resize_beyond_capacity_full_upload_witness :
    ∃ r1, sampleR.sprite_group_resize 0 6 = .ok r1
      ∧ ∃ g3, (r1.do_uploads).1.sprites.getD 0 none = some g3
        ∧ g3.transforms.length = 6
        ∧ g3.regions.length = 6
        ∧ (∀ i, i < 6 →
            g3.gpuT.getD i default = g3.transforms.getD i default
            ∧ g3.gpuR.getD i default = g3.regions.getD i default) :=
  resize_beyond_capacity_full_upload sampleR 0 6 sampleG rfl rfl (by decide) (by decide)
    (by decide)

end Frenderer

namespace Billboard

theorem lookup_pushKey_instance_data (bs : List (Key × BatchData)) (k1 k : Key) (t : Nat)
    (d : List SingleRenderState) :
    ((lookupBatch (pushKey bs k1 t d) k).map BatchData.instance_data).getD []
      = ((lookupBatch bs k).map BatchData.instance_data).getD []
        ++ (if k1 = k then d.map srsToInstanceData else []) := by
  induction bs with
  | nil =>
    simp only [pushKey, lookupBatch]
    by_cases h : k1 = k
    · rw [if_pos h, if_pos h]
      simp [BatchData.push_instances, create_batch]
    · rw [if_neg h, if_neg h]
      simp
  | cons p rest ih =>
    simp only [pushKey]
    by_cases h : p.1 = k1
    · rw [if_pos h]
      by_cases h2 : p.1 = k
      · simp only [lookupBatch, if_pos h2]
        rw [if_pos (h.symm.trans h2)]
        simp [BatchData.push_instances]
      · simp only [lookupBatch, if_neg h2]
        rw [if_neg fun hc => h2 (h.trans hc)]
        simp
    · rw [if_neg h]
      by_cases h2 : p.1 = k
      · simp only [lookupBatch, if_pos h2]
        rw [if_neg fun hc => h (h2.trans hc.symm)]
        simp
      · simp only [lookupBatch, if_neg h2]
        exact ih

theorem instData_push_models (r : Renderer) (k1 k : Key) (t : Nat)
    (d : List SingleRenderState) :
    instData (r.push_models k1 t d) k
      = instData r k ++ (if k1 = k then d.map srsToInstanceData else []) :=
  lookup_pushKey_instance_data r.batches k1 k t d

/-- C6: pushes accumulate.  After any sequence of `push_models` calls the
accumulation buffer under each key equals its previous contents followed by
the concatenation, in push order, of the (layout-reinterpreted) instance
sequences pushed to that key: pushes to the same key append and never
overwrite earlier contributions. -/
theorem push_models_accumulates (r : Renderer)
    (ps : List (Key × Nat × List SingleRenderState)) (k : Key) :
    instData (ps.foldl (fun acc p => acc.push_models p.1 p.2.1 p.2.2) r) k
      = instData r k
        ++ ((ps.filter fun p => decide (p.1 = k)).map
            fun p => p.2.2.map srsToInstanceData).flatten := by
  induction ps generalizing r with
  | nil => simp
  | cons p rest ih =>
    simp only [List.foldl_cons, List.filter_cons]
    rw [ih, instData_push_models]
    by_cases h : p.1 = k
    · simp [h, List.append_assoc]
    · simp [h]

theorem lookupBatch_eq_none_of_not_mem {bs : List (Key × BatchData)} {k : Key}
    (h : k ∉ bs.map fun p => p.1) : lookupBatch bs k = none := by
  induction bs with
  | nil => rfl
  | cons p rest ih =>
    simp only [List.map_cons, List.mem_cons, not_or] at h
    have hne : ¬ (p.1 = k) := fun hc => h.1 hc.symm
    simp only [lookupBatch, if_neg hne]
    exact ih h.2

theorem filter_drawCalls_eq_nil {bs : List (Key × BatchData)} {k : Key}
    (h : k ∉ bs.map fun p => p.1) :
    (bs.map fun p => DrawCall.mk p.1 6 p.2.instance_data.length).filter
        (fun c => decide (c.key = k)) = [] := by
  induction bs with
  | nil => rfl
  | cons p rest ih =>
    simp only [List.map_cons, List.mem_cons, not_or] at h
    have hne : ¬ ((DrawCall.mk p.1 6 p.2.instance_data.length).key = k) :=
      fun hc => h.1 hc.symm
    simp only [List.map_cons]
    rw [List.filter_cons_of_neg (by simp [hne])]
    exact ih h.2

theorem lookupBatch_of_mem {bs : List (Key × BatchData)} {p : Key × BatchData}
    (hnd : (bs.map fun q => q.1).Nodup) (hp : p ∈ bs) :
    lookupBatch bs p.1 = some p.2 := by
  induction bs with
  | nil => simp at hp
  | cons q rest ih =>
    simp only [List.map_cons, List.nodup_cons] at hnd
    rcases List.mem_cons.1 hp with h | h
    · subst h
      simp [lookupBatch]
    · have hne : ¬ (q.1 = p.1) := fun hc =>
        hnd.1 (hc ▸ List.mem_map.2 ⟨p, h, rfl⟩)
      simp only [lookupBatch, if_neg hne]
      exact ih hnd.2 h

theorem filter_draw_list {bs : List (Key × BatchData)} {k : Key} {bd : BatchData}
    (hnd : (bs.map fun p => p.1).Nodup) (h : lookupBatch bs k = some bd) :
    (bs.map fun p => DrawCall.mk p.1 6 p.2.instance_data.length).filter
        (fun c => decide (c.key = k)) = [DrawCall.mk k 6 bd.instance_data.length] := by
  induction bs with
  | nil => simp [lookupBatch] at h
  | cons p rest ih =>
    simp only [List.map_cons, List.nodup_cons] at hnd
    simp only [lookupBatch] at h
    by_cases hk : p.1 = k
    · rw [if_pos hk] at h
      obtain rfl := Option.some.inj h
      subst hk
      simp only [List.map_cons]
      rw [List.filter_cons_of_pos (by simp)]
      rw [filter_drawCalls_eq_nil hnd.1]
    · rw [if_neg hk] at h
      have hne : ¬ ((DrawCall.mk p.1 6 p.2.instance_data.length).key = k) := hk
      simp only [List.map_cons]
      rw [List.filter_cons_of_neg (by simp [hne])]
      exact ih hnd.2 h

/-- C7 amended: at draw time exactly one draw call is issued per key present
in the batch table — a key whose accumulation buffer is empty still receives
one call, its instance count zero — and every issued call's instance count
equals the length of that key's accumulated buffer. -/
theorem draw_one_call_per_present_key (r : Renderer)
    (hnd : (r.batches.map fun p => p.1).Nodup) :
    (∀ k bd, r.batch? k = some bd →
      (r.draw).2.filter (fun c => decide (c.key = k))
        = [DrawCall.mk k 6 bd.instance_data.length])
    ∧ ∀ c ∈ (r.draw).2, ∃ bd, r.batch? c.key = some bd
        ∧ c.instances = bd.instance_data.length := by
  constructor
  · intro k bd h
    exact filter_draw_list hnd h
  · intro c hc
    obtain ⟨p, hp, rfl⟩ := List.mem_map.1 hc
    exact ⟨p.2, lookupBatch_of_mem hnd hp, rfl⟩

/-- Witness for the one-call-per-key theorem at a prepared table holding one
batch with one accumulated instance: the calls carrying that key are exactly
one call with instance count one. -/
theorem draw_one_call_per_present_key_witness :
    (((emptyB.push_models k0 0 [default]).prepare_draw).draw).2.filter
        (fun c => decide (c.key = k0))
      = [DrawCall.mk k0 6
          (((create_batch 0).push_instances [default]).prepare_draw).instance_data.length] :=
  (draw_one_call_per_present_key ((emptyB.push_models k0 0 [default]).prepare_draw)
    (by decide)).1 k0 (((create_batch 0).push_instances [default]).prepare_draw) (by decide)

/-- C7 counterexample: push one instance under key `(0, Additive)`, prepare,
draw; the batch survives the frame with an empty accumulation buffer.  After
the next frame's `prepare_draw` (with no new pushes), `draw` still issues a
draw call for that key, with instance count zero — the claim promises that
no call is issued for a key whose accumulation buffer is empty. -/
theorem draw_call_issued_for_empty_key :
    (((((((emptyB.push_models k0 0 [default]).prepare_draw).draw).1).prepare_draw).batch?
          k0).map fun bd => bd.instance_data) = some []
    ∧ (((((((emptyB.push_models k0 0 [default]).prepare_draw).draw).1).prepare_draw).draw).2)
        = [DrawCall.mk k0 6 0] := by
  decide

theorem clear_list_lookup_none {bs : List (Key × BatchData)} {k : Key}
    (h : k ∉ bs.map fun p => p.1) :
    lookupBatch ((bs.filter fun p => !p.2.instance_data.isEmpty).map
        fun p => (p.1, p.2.clear_frame)) k = none := by
  apply lookupBatch_eq_none_of_not_mem
  intro hc
  apply h
  simp only [List.map_map] at hc
  obtain ⟨p, hp, hpk⟩ := List.mem_map.1 hc
  exact List.mem_map.2 ⟨p, (List.mem_filter.1 hp).1, hpk⟩

theorem lookup_clear_list {bs : List (Key × BatchData)}
    (hnd : (bs.map fun p => p.1).Nodup) (k : Key) :
    lookupBatch ((bs.filter fun p => !p.2.instance_data.isEmpty).map
        fun p => (p.1, p.2.clear_frame)) k
      = ((lookupBatch bs k).filter fun bd => !bd.instance_data.isEmpty).map
          BatchData.clear_frame := by
  induction bs with
  | nil => rfl
  | cons p rest ih =>
    simp only [List.map_cons, List.nodup_cons] at hnd
    by_cases hk : p.1 = k
    · subst hk
      by_cases he : p.2.instance_data.isEmpty
      · rw [List.filter_cons_of_neg (by simp [he])]
        rw [clear_list_lookup_none hnd.1]
        simp [lookupBatch, Option.filter, he]
      · rw [List.filter_cons_of_pos (by simp [he])]
        simp only [List.map_cons]
        simp [lookupBatch, Option.filter, he]
    · by_cases he : p.2.instance_data.isEmpty
      · rw [List.filter_cons_of_neg (by simp [he])]
        rw [ih hnd.2]
        simp [lookupBatch, if_neg hk]
      · rw [List.filter_cons_of_pos (by simp [he])]
        simp only [List.map_cons]
        simp only [lookupBatch, if_neg hk]
        exact ih hnd.2

/-- C8 amended: after `draw` completes, the accumulation buffers of all
batches are cleared entirely — per-frame and persistent contributions alike:
a batch that was non-empty this frame survives as an entry with an empty
buffer, a batch that was empty is dropped.  Persistent contributions
reappear in later frames only because `prepare` pushes them again from the
render state. -/
theorem draw_clears_every_buffer (r : Renderer)
    (hnd : (r.batches.map fun p => p.1).Nodup) (k : Key) :
    (r.draw).1.batch? k
      = ((r.batch? k).filter fun bd => !bd.instance_data.isEmpty).map
          BatchData.clear_frame :=
  lookup_clear_list hnd k

/-- Witness for the clearing theorem at a prepared table holding one
non-empty batch: after the draw the entry survives with an empty buffer. -/
theorem draw_clears_every_buffer_witness :
    (((emptyB.push_models k0 0 [default]).prepare_draw).draw).1.batch? k0
      = ((((emptyB.push_models k0 0 [default]).prepare_draw).batch? k0).filter
          fun bd => !bd.instance_data.isEmpty).map BatchData.clear_frame :=
  draw_clears_every_buffer ((emptyB.push_models k0 0 [default]).prepare_draw) (by decide) k0

/-- C8 counterexample: the persistent (raw) contribution pushed by `prepare`
is not retained in the accumulation buffer across `draw`: after preparing
one raw instance and drawing, the batch's buffer is empty — the claim says
persistent contributions are retained in the buffer for the next frame. -/
theorem draw_drops_persistent_contribution :
    (((emptyB.prepare sampleBState id).batch? k0).map fun bd => bd.instance_data)
        = some [srsToInstanceData default]
    ∧ ((((emptyB.prepare sampleBState id).draw).1.batch? k0).map
        fun bd => bd.instance_data) = some [] := by
  decide

end Billboard

namespace Frenderer

variable {α β γ : Type}

theorem meshes_pipeline [Inhabited α] [Inhabited β] [Inhabited γ]
    (r : Renderer α β γ) (which : MeshGroup) (idx : Nat) (ms : List (MeshData γ))
    (md : MeshData γ) (b : RBounds) (rng : URange) (newV : List γ)
    (hq : r.queued_uploads = [])
    (hms : r.meshes.getD which.idx none = some ms)
    (hmd : ms[idx]? = some md)
    (hrng : range b md.instances.length = rng)
    (hlo : rng.start ≤ rng.stop) (hhi : rng.stop ≤ md.instances.length) :
    (r.meshes_mut which idx b).2 = .ok rng
    ∧ meshAt
        (((r.meshes_mut which idx b).1.write_meshes which idx rng newV).do_uploads).1.meshes
        which idx
      = some { md with
          instances := writeThrough md.instances rng newV
          gpu := copyRange md.gpu (writeThrough md.instances rng newV) rng } := by
  have hw : which.idx < r.meshes.length := lt_length_of_getD_some hms
  have hidx : idx < ms.length := by
    rcases List.getElem?_eq_some.1 hmd with ⟨hh, _⟩
    exact hh
  have hcount : meshCount r.meshes which idx = some md.instances.length := by
    simp only [meshCount]
    rw [hms]
    dsimp only
    rw [hmd]
  have hmut : r.meshes_mut which idx b
      = ({ r with queued_uploads := r.queued_uploads ++ [Upload.Mesh which idx rng] },
          .ok rng) := by
    simp only [Renderer.meshes_mut]
    rw [hcount]
    dsimp only
    rw [hrng, if_pos ⟨hlo, hhi⟩]
  refine ⟨by rw [hmut], ?_⟩
  rw [hmut]
  dsimp only
  simp only [Renderer.write_meshes]
  rw [show ({ r with queued_uploads := r.queued_uploads ++ [Upload.Mesh which idx rng] } :
        Renderer α β γ).meshes = r.meshes from rfl]
  rw [hms]
  dsimp only
  rw [hmd]
  dsimp only
  simp only [Renderer.do_uploads]
  rw [hq]
  simp only [List.nil_append, List.foldl_cons, List.foldl_nil, uploadStep, applyUpload]
  simp only [uploadMeshStore]
  rw [getD_set_self _ none (by simpa using hw)]
  dsimp only
  rw [getElem?_set_self_of_lt _ hidx]
  dsimp only
  simp only [meshAt]
  rw [List.set_set, getD_set_self _ none (by simpa using hw)]
  dsimp only
  rw [List.set_set, getElem?_set_self_of_lt _ hidx]

theorem flats_pipeline [Inhabited α] [Inhabited β] [Inhabited γ]
    (r : Renderer α β γ) (which : MeshGroup) (idx : Nat) (ms : List (MeshData γ))
    (md : MeshData γ) (b : RBounds) (rng : URange) (newV : List γ)
    (hq : r.queued_uploads = [])
    (hms : r.flats.getD which.idx none = some ms)
    (hmd : ms[idx]? = some md)
    (hrng : range b md.instances.length = rng)
    (hlo : rng.start ≤ rng.stop) (hhi : rng.stop ≤ md.instances.length) :
    (r.flats_mut which idx b).2 = .ok rng
    ∧ meshAt
        (((r.flats_mut which idx b).1.write_flats which idx rng newV).do_uploads).1.flats
        which idx
      = some { md with
          instances := writeThrough md.instances rng newV
          gpu := copyRange md.gpu (writeThrough md.instances rng newV) rng } := by
  have hw : which.idx < r.flats.length := lt_length_of_getD_some hms
  have hidx : idx < ms.length := by
    rcases List.getElem?_eq_some.1 hmd with ⟨hh, _⟩
    exact hh
  have hcount : meshCount r.flats which idx = some md.instances.length := by
    simp only [meshCount]
    rw [hms]
    dsimp only
    rw [hmd]
  have hmut : r.flats_mut which idx b
      = ({ r with queued_uploads := r.queued_uploads ++ [Upload.Flat which idx rng] },
          .ok rng) := by
    simp only [Renderer.flats_mut]
    rw [hcount]
    dsimp only
    rw [hrng, if_pos ⟨hlo, hhi⟩]
  refine ⟨by rw [hmut], ?_⟩
  rw [hmut]
  dsimp only
  simp only [Renderer.write_flats]
  rw [show ({ r with queued_uploads := r.queued_uploads ++ [Upload.Flat which idx rng] } :
        Renderer α β γ).flats = r.flats from rfl]
  rw [hms]
  dsimp only
  rw [hmd]
  dsimp only
  simp only [Renderer.do_uploads]
  rw [hq]
  simp only [List.nil_append, List.foldl_cons, List.foldl_nil, uploadStep, applyUpload]
  simp only [uploadMeshStore]
  rw [getD_set_self _ none (by simpa using hw)]
  dsimp only
  rw [getElem?_set_self_of_lt _ hidx]
  dsimp only
  simp only [meshAt]
  rw [List.set_set, getD_set_self _ none (by simpa using hw)]
  dsimp only
  rw [List.set_set, getElem?_set_self_of_lt _ hidx]

end Frenderer

namespace Frenderer

/-- C1: round trip.  For each of the three mutable-range accessors
(`sprites_mut`, `meshes_mut`, `flats_mut`), starting from a flushed state
(empty pending queue) on a live group with an in-bounds range, writing new
values through the returned slices and then flushing via `do_uploads`
leaves the GPU buffers holding exactly the written values at the same
offsets, while every index outside the range keeps its previous GPU
contents. -/
theorem accessor_write_flush_round_trip (α β γ : Type)
    [Inhabited α] [Inhabited β] [Inhabited γ] :
    (∀ (r : Renderer α β γ) (which : Nat) (g : SpriteGroup α β) (b : RBounds) (rng : URange)
        (newT : List α) (newR : List β),
      r.queued_uploads = [] →
      r.sprites.getD which none = some g →
      range b g.transforms.length = rng →
      rng.start ≤ rng.stop → rng.stop ≤ g.transforms.length →
      g.regions.length = g.transforms.length →
      g.transforms.length ≤ g.gpuT.length →
      g.transforms.length ≤ g.gpuR.length →
      (r.sprites_mut which b).2 = .ok rng
      ∧ ∃ g3,
        (((r.sprites_mut which b).1.write_sprites which rng newT newR).do_uploads).1.sprites.getD
            which none = some g3
        ∧ (∀ i, rng.start ≤ i → i < rng.stop →
            g3.gpuT.getD i default = newT.getD (i - rng.start) default
            ∧ g3.gpuR.getD i default = newR.getD (i - rng.start) default)
        ∧ (∀ i, (i < rng.start ∨ rng.stop ≤ i) →
            (i < g.gpuT.length → g3.gpuT.getD i default = g.gpuT.getD i default)
            ∧ (i < g.gpuR.length → g3.gpuR.getD i default = g.gpuR.getD i default)))
    ∧ (∀ (r : Renderer α β γ) (which : MeshGroup) (idx : Nat) (ms : List (MeshData γ))
        (md : MeshData γ) (b : RBounds) (rng : URange) (newV : List γ),
      r.queued_uploads = [] →
      r.meshes.getD which.idx none = some ms →
      ms[idx]? = some md →
      range b md.instances.length = rng →
      rng.start ≤ rng.stop → rng.stop ≤ md.instances.length →
      md.instances.length ≤ md.gpu.length →
      (r.meshes_mut which idx b).2 = .ok rng
      ∧ ∃ md3,
        meshAt
            (((r.meshes_mut which idx b).1.write_meshes which idx rng newV).do_uploads).1.meshes
            which idx = some md3
        ∧ (∀ i, rng.start ≤ i → i < rng.stop →
            md3.gpu.getD i default = newV.getD (i - rng.start) default)
        ∧ (∀ i, (i < rng.start ∨ rng.stop ≤ i) → i < md.gpu.length →
            md3.gpu.getD i default = md.gpu.getD i default))
    ∧ (∀ (r : Renderer α β γ) (which : MeshGroup) (idx : Nat) (ms : List (MeshData γ))
        (md : MeshData γ) (b : RBounds) (rng : URange) (newV : List γ),
      r.queued_uploads = [] →
      r.flats.getD which.idx none = some ms →
      ms[idx]? = some md →
      range b md.instances.length = rng →
      rng.start ≤ rng.stop → rng.stop ≤ md.instances.length →
      md.instances.length ≤ md.gpu.length →
      (r.flats_mut which idx b).2 = .ok rng
      ∧ ∃ md3,
        meshAt
            (((r.flats_mut which idx b).1.write_flats which idx rng newV).do_uploads).1.flats
            which idx = some md3
        ∧ (∀ i, rng.start ≤ i → i < rng.stop →
            md3.gpu.getD i default = newV.getD (i - rng.start) default)
        ∧ (∀ i, (i < rng.start ∨ rng.stop ≤ i) → i < md.gpu.length →
            md3.gpu.getD i default = md.gpu.getD i default)) := by
  refine ⟨?_, ?_, ?_⟩
  · intro r which g b rng newT newR hq hg hrng hlo hhi hreg hTlen hRlen
    exact sprites_round_trip_aux r which g b rng newT newR hq hg hrng hlo hhi hreg hTlen hRlen
  · intro r which idx ms md b rng newV hq hms hmd hrng hlo hhi hglen
    obtain ⟨hok, hpipe⟩ := meshes_pipeline r which idx ms md b rng newV hq hms hmd hrng hlo hhi
    refine ⟨hok, ⟨_, hpipe, ?_, ?_⟩⟩
    · intro i h1 h2
      dsimp only
      rw [copyRange_getD_in ⟨h1, h2⟩ (by omega)]
      exact writeThrough_getD_in ⟨h1, h2⟩ (by omega)
    · intro i hio hilen
      dsimp only
      exact copyRange_getD_out (by omega) hilen
  · intro r which idx ms md b rng newV hq hms hmd hrng hlo hhi hglen
    obtain ⟨hok, hpipe⟩ := flats_pipeline r which idx ms md b rng newV hq hms hmd hrng hlo hhi
    refine ⟨hok, ⟨_, hpipe, ?_, ?_⟩⟩
    · intro i h1 h2
      dsimp only
      rw [copyRange_getD_in ⟨h1, h2⟩ (by omega)]
      exact writeThrough_getD_in ⟨h1, h2⟩ (by omega)
    · intro i hio hilen
      dsimp only
      exact copyRange_getD_out (by omega) hilen

/-- Witness for the round-trip theorem: the concrete scenario of spec
section 8 — a sprite group of length four with all-zero payloads, write
through range one-to-three, flush: the GPU arrays hold the written values
at offsets one and two and zero elsewhere.  The mesh conjunct is
instantiated at the sample mesh group over its full range. -/
theorem accessor_write_flush_round_trip_witness :
    ((sampleR.sprites_mut 0 ⟨.included 1, .excluded 3⟩).2 = .ok ⟨1, 3⟩
      ∧ (((sampleR.sprites_mut 0 ⟨.included 1, .excluded 3⟩).1.write_sprites 0 ⟨1, 3⟩
            [10, 20] [30, 40]).do_uploads).1.sprites.getD 0 none
          = some { transforms := [0, 10, 20, 0], regions := [0, 30, 40, 0], capacity := 4
                   gpuT := [0, 10, 20, 0], gpuR := [0, 30, 40, 0] })
    ∧ ((sampleR.meshes_mut ⟨0⟩ 0 ⟨.unbounded, .unbounded⟩).2 = .ok ⟨0, 3⟩
      ∧ meshAt (((sampleR.meshes_mut ⟨0⟩ 0 ⟨.unbounded, .unbounded⟩).1.write_meshes ⟨0⟩ 0
            ⟨0, 3⟩ [11, 12, 13]).do_uploads).1.meshes ⟨0⟩ 0
          = some { instances := [11, 12, 13], gpu := [11, 12, 13] }) :=
  ⟨⟨((accessor_write_flush_round_trip Nat Nat Nat).1 sampleR 0 sampleG
      ⟨.included 1, .excluded 3⟩ ⟨1, 3⟩ [10, 20] [30, 40] rfl rfl rfl (by decide) (by decide)
      rfl (by decide) (by decide)).1, by decide⟩,
    ⟨((accessor_write_flush_round_trip Nat Nat Nat).2.1 sampleR ⟨0⟩ 0
        [{ instances := [5, 6, 7], gpu := [0, 0, 0] }] { instances := [5, 6, 7], gpu := [0, 0, 0] }
        ⟨.unbounded, .unbounded⟩ ⟨0, 3⟩ [11, 12, 13] rfl rfl rfl rfl (by decide) (by decide)
        (by decide)).1, by decide⟩⟩

end Frenderer
